import Mathlib

/-!
Shallow embedding of the interaction / counter-consistency engine of the
photo-sharing backend (`backend/shared/interaction_service.py` together with
the interaction-relevant parts of `backend/shared/models.py`).

Modelling conventions:

* Python strings (ids, interaction types, comment content) are `List Char`
  (abbreviated `Str`), so that prefix tests (`begins_with`) and trimming are
  plain list operations.
* The DynamoDB tables are modelled as in-memory lists of records inside a
  `Store`.  `put_item` replaces the item with the same primary key if one
  exists (DynamoDB overwrite semantics) and appends otherwise; `delete_item`
  removes the items with the given key; `query` on a partition returns the
  partition's records, truncated to `Limit` items *before* the
  `FilterExpression` is applied (DynamoDB applies `Limit` before filters).
  Record order in the list stands for the store's sort-key order; every
  theorem below is insensitive to which total order that is, because its
  hypotheses make the relevant query match at most one record.
* `created_at` timestamps (ISO-8601 strings produced by
  `BaseModel._get_timestamp`) are modelled as a `Nat` drawn from a strictly
  increasing clock `Store.now`; the decimal rendering `tsChars` stands for the
  ISO string embedded in the composite `interaction_id`
  (`{type}#{user_id}#{timestamp}`).  The orderings agree: ISO timestamps
  compare lexicographically exactly as the instants they denote.
* Exceptions (`ValidationError`, `NotFoundError`, `DatabaseError`) become an
  `Err` sum; a service call returns `Except Err α × Store`, the store
  component being the state after the call (unchanged when the code raises
  before writing).  The `monitor_database_operation` decorator re-raises every
  exception, so it is the identity for these purposes.
* `User` fields never read by the interaction engine (email, password hash,
  bio, created_at) and `Post` fields never read by it (image key, caption,
  owner, created_at) are omitted from the records.
-/

abbrev Str := List Char

/-- The `interaction_type` tag of a like record. -/
def likeT : Str := "like".data

/-- The `interaction_type` tag of a comment record. -/
def commentT : Str := "comment".data

/-- Decimal rendering of a model timestamp, standing for the ISO string
embedded in composite interaction ids. -/
def tsChars (ts : Nat) : Str := Nat.toDigits 10 ts

/-- Composite interaction id, `{type}#{user_id}#{timestamp}`
(`Interaction.__init__` in `models.py`). -/
def mkInteractionId (ty uid : Str) (ts : Nat) : Str :=
  ty ++ '#' :: (uid ++ '#' :: tsChars ts)

/-- DynamoDB `begins_with(s, pre)`. -/
def beginsWith (s pre : Str) : Bool := pre.isPrefixOf s

/-- The key-condition value `like#{user_id}#` used by
`Interaction.get_user_like`. -/
def likeIdHead (uid : Str) : Str := likeT ++ '#' :: (uid ++ ['#'])

/-- Python `str.strip()`: drop leading and trailing whitespace. -/
def pyStrip (s : Str) : Str :=
  ((s.dropWhile Char.isWhitespace).reverse.dropWhile Char.isWhitespace).reverse

/-- A row of the Users table (fields the interaction engine reads). -/
structure UserRec where
  user_id : Str
  username : Str
  profile_image : Option Str
  deriving Repr, DecidableEq

/-- A row of the Posts table (fields the interaction engine reads). -/
structure PostRec where
  post_id : Str
  likes_count : Int
  comments_count : Int
  deriving Repr, DecidableEq

/-- A row of the Interactions table. -/
structure InteractionRec where
  post_id : Str
  interaction_id : Str
  user_id : Str
  interaction_type : Str
  content : Option Str
  created_at : Nat
  deriving Repr, DecidableEq

/-- The three DynamoDB tables plus the model clock feeding
`BaseModel._get_timestamp`. -/
structure Store where
  users : List UserRec
  posts : List PostRec
  interactions : List InteractionRec
  now : Nat
  deriving Repr, DecidableEq

/-- Exceptions raised by the engine (`error_handler.py`): `ValidationError`,
`NotFoundError`, and the opaque store/database failures. -/
inductive Err where
  | validation (msg : String)
  | notFound (msg : String)
  | database (msg : String)
  deriving Repr, DecidableEq

deriving instance DecidableEq for Except

/-- `User.get_by_id`: `get_item` on the Users table primary key. -/
def User.get_by_id (st : Store) (uid : Str) : Option UserRec :=
  st.users.find? (fun u => u.user_id == uid)

/-- `Post.get_by_id`: `get_item` on the Posts table primary key. -/
def Post.get_by_id (st : Store) (pid : Str) : Option PostRec :=
  st.posts.find? (fun p => p.post_id == pid)

/-- `Post.update_counts`: the atomic
`ADD likes_count :likes_delta, comments_count :comments_delta` update on the
Post row (a no-op on the table when no row has the key; the engine only calls
it after a successful `Post.get_by_id`). -/
def Post.update_counts (st : Store) (pid : Str) (likes_delta comments_delta : Int) : Store :=
  { st with posts := st.posts.map (fun p =>
      if p.post_id == pid then
        { p with likes_count := p.likes_count + likes_delta,
                 comments_count := p.comments_count + comments_delta }
      else p) }

/-- `put_item` on the Interactions table: overwrite the item carrying the same
`(post_id, interaction_id)` key, append otherwise. -/
def putInteraction (l : List InteractionRec) (i : InteractionRec) : List InteractionRec :=
  if l.any (fun j => j.post_id == i.post_id && j.interaction_id == i.interaction_id) then
    l.map (fun j =>
      if j.post_id == i.post_id && j.interaction_id == i.interaction_id then i else j)
  else l ++ [i]

/-- `delete_item` on the Interactions table key `(post_id, interaction_id)`. -/
def deleteByKey (l : List InteractionRec) (pid iid : Str) : List InteractionRec :=
  l.filter (fun i => !(i.post_id == pid && i.interaction_id == iid))

/-- `Interaction.get_user_like`: query the post's partition for the first item
whose sort key begins with `like#{user_id}#` (`Limit=1`). -/
def Interaction.get_user_like (st : Store) (pid uid : Str) : Option InteractionRec :=
  (st.interactions.filter (fun i => i.post_id == pid)).find?
    (fun i => beginsWith i.interaction_id (likeIdHead uid))

/-- `Interaction.get_post_interactions`: query the post's partition with
`Limit = limit`, then apply the optional `interaction_type` filter (DynamoDB
applies `Limit` before `FilterExpression`). -/
def Interaction.get_post_interactions (st : Store) (pid : Str) (ty : Option Str)
    (limit : Nat) : List InteractionRec :=
  let window := (st.interactions.filter (fun i => i.post_id == pid)).take limit
  match ty with
  | some t => window.filter (fun i => i.interaction_type == t)
  | none => window

/-- `Interaction.delete_like`: re-find the like via `get_user_like`, then
delete it by key; a no-op when none is found. -/
def Interaction.delete_like (st : Store) (pid uid : Str) : Store :=
  match Interaction.get_user_like st pid uid with
  | none => st
  | some like =>
    { st with interactions := deleteByKey st.interactions pid like.interaction_id }

/-- Fresh interaction record: `Interaction.__init__` reads the clock once and
derives `interaction_id` from it; `Interaction.save` stores `content` only
when it is truthy (non-empty). -/
def newInteraction (st : Store) (pid uid ty : Str) (content : Str) : InteractionRec :=
  { post_id := pid
    user_id := uid
    interaction_type := ty
    content := if content == [] then none else some content
    created_at := st.now
    interaction_id := mkInteractionId ty uid st.now }

/-- Save a freshly constructed interaction and advance the clock. -/
def saveInteraction (st : Store) (i : InteractionRec) : Store :=
  { st with interactions := putInteraction st.interactions i, now := st.now + 1 }

/-- Result of `InteractionService.toggle_like`. -/
structure ToggleResult where
  liked : Bool
  likes_count : Int
  message : String
  deriving Repr, DecidableEq

/-- `InteractionService.toggle_like(user_id, post_id)`. -/
def toggle_like (st : Store) (user_id post_id : Str) : Except Err ToggleResult × Store :=
  match Post.get_by_id st post_id with
  | none => (.error (.notFound "投稿が見つかりません"), st)
  | some post =>
    match Interaction.get_user_like st post_id user_id with
    | some _ =>
      let st1 := Interaction.delete_like st post_id user_id
      let st2 := Post.update_counts st1 post_id (-1) 0
      (.ok { liked := false, likes_count := post.likes_count - 1,
             message := "いいねを取り消しました" }, st2)
    | none =>
      let st1 := saveInteraction st (newInteraction st post_id user_id likeT [])
      let st2 := Post.update_counts st1 post_id 1 0
      (.ok { liked := true, likes_count := post.likes_count + 1,
             message := "いいねしました" }, st2)

/-- The denormalized comment data returned by `add_comment`. -/
structure CommentData where
  interaction_id : Str
  post_id : Str
  user_id : Str
  username : Str
  content : Str
  created_at : Nat
  deriving Repr, DecidableEq

/-- Result of `InteractionService.add_comment`. -/
structure AddCommentResult where
  comment : CommentData
  comments_count : Int
  message : String
  deriving Repr, DecidableEq

/-- `InteractionService.add_comment(user_id, post_id, content)`. -/
def add_comment (st : Store) (user_id post_id : Str) (content : Str) :
    Except Err AddCommentResult × Store :=
  if content == [] || pyStrip content == [] then
    (.error (.validation "コメント内容が必要です"), st)
  else
    let trimmed := pyStrip content
    if trimmed.length > 500 then
      (.error (.validation "コメントは500文字以内で入力してください"), st)
    else
      match Post.get_by_id st post_id with
      | none => (.error (.notFound "投稿が見つかりません"), st)
      | some post =>
        match User.get_by_id st user_id with
        | none => (.error (.notFound "ユーザーが見つかりません"), st)
        | some user =>
          let comment := newInteraction st post_id user_id commentT trimmed
          let st1 := saveInteraction st comment
          let st2 := Post.update_counts st1 post_id 0 1
          (.ok { comment := { interaction_id := comment.interaction_id
                              post_id := post_id
                              user_id := user_id
                              username := user.username
                              content := trimmed
                              created_at := comment.created_at }
                 comments_count := post.comments_count + 1
                 message := "コメントを投稿しました" }, st2)

/-- One joined entry of `get_post_likes`. -/
structure LikeEntry where
  user_id : Str
  username : Str
  profile_image : Option Str
  created_at : Nat
  deriving Repr, DecidableEq

/-- Result of `InteractionService.get_post_likes`. -/
structure LikesResult where
  likes : List LikeEntry
  likes_count : Nat
  total_likes : Int
  deriving Repr, DecidableEq

/-- `InteractionService.get_post_likes(post_id, limit)`: join each live like
with its user (skipping likes whose user no longer exists), and report the
Post row's `likes_count` separately as `total_likes`. -/
def get_post_likes (st : Store) (post_id : Str) (limit : Nat) : Except Err LikesResult :=
  match Post.get_by_id st post_id with
  | none => .error (.notFound "投稿が見つかりません")
  | some post =>
    let likes := Interaction.get_post_interactions st post_id (some likeT) limit
    let rows := likes.filterMap (fun like =>
      (User.get_by_id st like.user_id).map (fun u =>
        { user_id := u.user_id
          username := u.username
          profile_image := u.profile_image
          created_at := like.created_at : LikeEntry }))
    .ok { likes := rows, likes_count := rows.length, total_likes := post.likes_count }

/-- One joined entry of `get_post_comments`. -/
structure CommentEntry where
  interaction_id : Str
  user_id : Str
  username : Str
  profile_image : Option Str
  content : Option Str
  created_at : Nat
  deriving Repr, DecidableEq

/-- Result of `InteractionService.get_post_comments`. -/
structure CommentsResult where
  comments : List CommentEntry
  comments_count : Nat
  total_comments : Int
  deriving Repr, DecidableEq

/-- `InteractionService.get_post_comments(post_id, limit)`: join each comment
with its user (skipping comments whose user no longer exists), then sort by
`created_at` ascending (Python's stable `list.sort`, modelled by the stable
`List.mergeSort`). -/
def get_post_comments (st : Store) (post_id : Str) (limit : Nat) : Except Err CommentsResult :=
  match Post.get_by_id st post_id with
  | none => .error (.notFound "投稿が見つかりません")
  | some post =>
    let comments := Interaction.get_post_interactions st post_id (some commentT) limit
    let rows := comments.filterMap (fun c =>
      (User.get_by_id st c.user_id).map (fun u =>
        { interaction_id := c.interaction_id
          user_id := u.user_id
          username := u.username
          profile_image := u.profile_image
          content := c.content
          created_at := c.created_at : CommentEntry }))
    let sorted := rows.mergeSort (fun a b => Nat.ble a.created_at b.created_at)
    .ok { comments := sorted, comments_count := sorted.length,
          total_comments := post.comments_count }

/-- `InteractionService.get_user_like_status(user_id, post_id)` when the store
query succeeds. -/
def get_user_like_status_pure (st : Store) (user_id post_id : Str) : Bool :=
  (Interaction.get_user_like st post_id user_id).isSome

/-- `InteractionService.get_user_like_status` with the store fault injected:
`fault = true` models the underlying query raising (e.g. a `ClientError`); the
method's bare `except` turns any such exception into `False`. -/
def get_user_like_status (fault : Bool) (st : Store) (user_id post_id : Str) : Bool :=
  match (if fault then Except.error (Err.database "データベース操作エラー: get_user_like")
         else Except.ok (Interaction.get_user_like st post_id user_id) :
           Except Err (Option InteractionRec)) with
  | .ok like => like.isSome
  | .error _ => false

/-- `InteractionService.toggle_like` with the same store fault injected: the
service installs no handler, so the first store call's exception propagates
(after `monitor_database_operation` re-labels it a `DatabaseError`). -/
def toggle_like_faulty (fault : Bool) (st : Store) (user_id post_id : Str) :
    Except Err ToggleResult × Store :=
  if fault then (.error (.database "データベース操作エラー: toggle_like"), st)
  else toggle_like st user_id post_id

/-- Result of `InteractionService.delete_comment`. -/
structure DeleteCommentResult where
  message : String
  comments_count : Int
  deriving Repr, DecidableEq

/-- `InteractionService.delete_comment(user_id, post_id, interaction_id)`:
fetch the post's comments (default query `limit` of 50), linear-scan for the
`interaction_id`, check authorship, delete by key, then decrement the post's
`comments_count` when the post still exists. -/
def delete_comment (st : Store) (user_id post_id interaction_id : Str) :
    Except Err DeleteCommentResult × Store :=
  let comments := Interaction.get_post_interactions st post_id (some commentT) 50
  match comments.find? (fun c => c.interaction_id == interaction_id) with
  | none => (.error (.notFound "コメントが見つかりません"), st)
  | some comment =>
    if comment.user_id != user_id then
      (.error (.validation "自分のコメントのみ削除できます"), st)
    else
      let st1 := { st with
        interactions := deleteByKey st.interactions comment.post_id comment.interaction_id }
      match Post.get_by_id st1 post_id with
      | none => (.ok { message := "コメントを削除しました", comments_count := 0 }, st1)
      | some post =>
        let st2 := Post.update_counts st1 post_id 0 (-1)
        (.ok { message := "コメントを削除しました",
               comments_count := post.comments_count - 1 }, st2)

/-- Well-formedness of a stored interaction row: its composite id is the one
`Interaction.__init__` derives from its own fields, its type tag is `like` or
`comment`, and its user id contains no `'#'` (true of every id the
application generates: `uuid4` hex-and-dashes). -/
def wfInteraction (i : InteractionRec) : Prop :=
  i.interaction_id = mkInteractionId i.interaction_type i.user_id i.created_at
  ∧ (i.interaction_type = likeT ∨ i.interaction_type = commentT)
  ∧ '#' ∉ i.user_id

/-- Store sanity: every interaction row is well-formed and was created at a
clock value strictly before `now` (timestamps are in the past). -/
def WF (st : Store) : Prop :=
  (∀ i ∈ st.interactions, wfInteraction i) ∧ (∀ i ∈ st.interactions, i.created_at < st.now)

instance (i : InteractionRec) : Decidable (wfInteraction i) := by
  unfold wfInteraction; infer_instance

instance (st : Store) : Decidable (WF st) := by
  unfold WF; infer_instance

/-- Key uniqueness of the Interactions table: `(post_id, interaction_id)` is
the table's primary key, so no two rows share it. -/
def KeysNodup (st : Store) : Prop :=
  (st.interactions.map (fun i => (i.post_id, i.interaction_id))).Nodup

instance (st : Store) : Decidable (KeysNodup st) := by
  unfold KeysNodup; infer_instance

/-- The live `like` rows of a post. -/
def likesOnPost (st : Store) (pid : Str) : List InteractionRec :=
  st.interactions.filter (fun i => i.post_id == pid && i.interaction_type == likeT)

/-- The live `like` rows of a `(post, user)` pair. -/
def pairLikes (st : Store) (pid uid : Str) : List InteractionRec :=
  st.interactions.filter
    (fun i => i.post_id == pid && i.interaction_type == likeT && i.user_id == uid)

/-- N consecutive sequential `toggle_like` calls; returns the per-call results
and the final store. -/
def toggleN (st : Store) (uid pid : Str) : Nat → List (Except Err ToggleResult) × Store
  | 0 => ([], st)
  | n + 1 =>
    let r := toggle_like st uid pid
    let rest := toggleN r.2 uid pid n
    (r.1 :: rest.1, rest.2)

/-- The alternating result sequence claimed for `toggle_like`: starting from
stored count `c` with `willLike` telling whether the next call likes. -/
def expectedToggles (c : Int) (willLike : Bool) : Nat → List (Except Err ToggleResult)
  | 0 => []
  | n + 1 =>
    if willLike then
      Except.ok { liked := true, likes_count := c + 1, message := "いいねしました" } ::
        expectedToggles (c + 1) false n
    else
      Except.ok { liked := false, likes_count := c - 1, message := "いいねを取り消しました" } ::
        expectedToggles (c - 1) true n

/-- The store after the like branch of `toggle_like` (append the fresh like,
advance the clock, `ADD likes_count 1`). -/
def likeStepStore (st : Store) (u p : Str) : Store :=
  Post.update_counts
    { st with interactions := st.interactions ++ [newInteraction st p u likeT []],
              now := st.now + 1 } p 1 0

/-- The store after the unlike branch of `toggle_like` (delete the found like
by key, `ADD likes_count -1`). -/
def unlikeStepStore (st : Store) (p iid : Str) : Store :=
  Post.update_counts { st with interactions := deleteByKey st.interactions p iid } p (-1) 0

/-- The store after a successful `add_comment` (append the fresh comment,
advance the clock, `ADD comments_count 1`). -/
def commentStepStore (st : Store) (uid pid trimmed : Str) : Store :=
  Post.update_counts
    { st with interactions := st.interactions ++ [newInteraction st pid uid commentT trimmed],
              now := st.now + 1 } pid 0 1

/-- Decimal value of a digit character. -/
def digitVal (c : Char) : Nat := c.toNat - 48

/-- Left fold reading a decimal digit string back into a number. -/
def parseDigits (s : Str) : Nat := s.foldl (fun a c => a * 10 + digitVal c) 0

/-- Post used by several concrete instantiations. -/
def wPost0 : PostRec := { post_id := ['P'], likes_count := 0, comments_count := 0 }

/-- Store for the C1 witness: one post, no interactions. -/
def w1St : Store := { users := [], posts := [wPost0], interactions := [], now := 0 }

/-- Post of the C1 counterexample state. -/
def c1Post : PostRec := { post_id := ['P'], likes_count := 1, comments_count := 0 }

/-- C1 counterexample state: one live like whose user id `a#b` contains `'#'`;
the pair `(P, a)` has no live like, yet the stored id `like#a#b#0` begins with
`like#a#`, so user `a`'s first toggle is treated as an unlike. -/
def c1St : Store :=
  { users := [], posts := [c1Post],
    interactions := [{ post_id := ['P'], user_id := ['a', '#', 'b'],
                       interaction_type := likeT, content := none, created_at := 0,
                       interaction_id := mkInteractionId likeT ['a', '#', 'b'] 0 }],
    now := 1 }

/-- C5 counterexample state: empty post, no likes; user `a#b` likes first,
then user `a`'s key-condition value `like#a#` matches `like#a#b#0`. -/
def c5St : Store := { users := [], posts := [wPost0], interactions := [], now := 0 }

/-- A comment row of the large C3/C8 counterexample state. -/
def bigComment (k : Nat) : InteractionRec :=
  { post_id := ['P'], user_id := ['b'], interaction_type := commentT,
    content := some ['x'], created_at := k,
    interaction_id := mkInteractionId commentT ['b'] k }

/-- C3/C8 counterexample state: a post with 51 comments, all by user `b`.
`delete_comment` queries the partition with `Limit=50`, so the comment with
timestamp 50 is outside the query window. -/
def bigSt : Store :=
  { users := [{ user_id := ['b'], username := "bob".data, profile_image := none }],
    posts := [{ post_id := ['P'], likes_count := 0, comments_count := 51 }],
    interactions := (List.range 51).map bigComment,
    now := 51 }

/-- The interaction id of the 51st comment of `bigSt`. -/
def bigTarget : Str := mkInteractionId commentT ['b'] 50

/-- Store for the C2/C4 witnesses: one post, one user. -/
def w4St : Store :=
  { users := [{ user_id := ['u'], username := "alice".data, profile_image := none }],
    posts := [wPost0], interactions := [], now := 0 }

/-- Store with only a user (C2 witness, missing-post branch). -/
def wUserOnlySt : Store :=
  { users := [{ user_id := ['u'], username := "alice".data, profile_image := none }],
    posts := [], interactions := [], now := 0 }

/-- Store for the C6 witness: two comments stored newest-first. -/
def c6St : Store :=
  { users := [{ user_id := ['u'], username := "alice".data, profile_image := none }],
    posts := [{ post_id := ['P'], likes_count := 0, comments_count := 2 }],
    interactions :=
      [{ post_id := ['P'], user_id := ['u'], interaction_type := commentT,
         content := some ['y'], created_at := 5,
         interaction_id := mkInteractionId commentT ['u'] 5 },
       { post_id := ['P'], user_id := ['u'], interaction_type := commentT,
         content := some ['z'], created_at := 3,
         interaction_id := mkInteractionId commentT ['u'] 3 }],
    now := 6 }

/-- Store for the C8 witness: one comment by its author. -/
def w8St : Store :=
  { users := [], posts := [{ post_id := ['P'], likes_count := 0, comments_count := 1 }],
    interactions := [{ post_id := ['P'], user_id := ['u'], interaction_type := commentT,
                       content := some ['x'], created_at := 0,
                       interaction_id := mkInteractionId commentT ['u'] 0 }],
    now := 1 }

/-- Store exhibiting counter drift for C9: the Post row says 5 likes while no
live like row exists. -/
def c9St : Store :=
  { users := [], posts := [{ post_id := ['P'], likes_count := 5, comments_count := 0 }],
    interactions := [], now := 0 }

/-! ### Auxiliary lemmas: decimal digits, `#`-separated segments, composite ids -/

theorem tdc_eq (n : Nat) : ∀ (fuel : Nat) (acc : List Char), n < fuel →
    Nat.toDigitsCore 10 fuel n acc = Nat.toDigitsCore 10 (n + 1) n [] ++ acc := by
  induction n using Nat.strong_induction_on with
  | _ n ih =>
    intro fuel acc hlt
    match fuel with
    | 0 => omega
    | f + 1 =>
      by_cases h0 : n / 10 = 0
      · simp [Nat.toDigitsCore, h0]
      · have hn : 0 < n := Nat.pos_of_ne_zero (fun h => h0 (by simp [h]))
        have hq : n / 10 < n := Nat.div_lt_self hn (by decide)
        have h1 : n / 10 < f := by omega
        simp only [Nat.toDigitsCore, h0, if_false]
        rw [ih (n / 10) hq f (Nat.digitChar (n % 10) :: acc) h1,
            ih (n / 10) hq n [Nat.digitChar (n % 10)] (by omega)]
        simp

theorem toDigits_decomp (n : Nat) (h : ¬ n / 10 = 0) :
    Nat.toDigits 10 n = Nat.toDigits 10 (n / 10) ++ [Nat.digitChar (n % 10)] := by
  rw [Nat.toDigits, Nat.toDigits]
  simp only [Nat.toDigitsCore, h, if_false]
  exact tdc_eq (n / 10) n [Nat.digitChar (n % 10)]
    (Nat.lt_of_lt_of_le
      (Nat.div_lt_self (Nat.pos_of_ne_zero (fun hh => h (by simp [hh]))) (by decide))
      (by omega))

theorem digitVal_digitChar (m : Nat) (h : m < 10) : digitVal (Nat.digitChar m) = m := by
  interval_cases m <;> rfl

theorem parseDigits_toDigits (n : Nat) : parseDigits (Nat.toDigits 10 n) = n := by
  induction n using Nat.strong_induction_on with
  | _ n ih =>
    by_cases h0 : n / 10 = 0
    · have hlt : n < 10 := by omega
      have hmod : n % 10 = n := Nat.mod_eq_of_lt hlt
      rw [Nat.toDigits]
      simp only [Nat.toDigitsCore, h0, if_true]
      simp [parseDigits, hmod, digitVal_digitChar n hlt]
    · rw [toDigits_decomp n h0]
      have hq : n / 10 < n := Nat.div_lt_self (by omega) (by decide)
      have hmod : n % 10 < 10 := Nat.mod_lt _ (by decide)
      have hrec := ih (n / 10) hq
      simp only [parseDigits, List.foldl_append] at hrec ⊢
      rw [hrec]
      simp only [List.foldl, digitVal_digitChar _ hmod]
      omega

theorem tsChars_inj {m n : Nat} (h : tsChars m = tsChars n) : m = n := by
  have h2 := congrArg parseDigits h
  rw [tsChars, tsChars, parseDigits_toDigits, parseDigits_toDigits] at h2
  exact h2

theorem hashSeg_eq (a : List Char) :
    ∀ (b c d : List Char), '#' ∉ a → '#' ∉ b →
      a ++ '#' :: c = b ++ '#' :: d → a = b ∧ c = d := by
  induction a with
  | nil =>
    intro b c d _ hb h
    cases b with
    | nil => simpa using h
    | cons y bs =>
      simp only [List.nil_append, List.cons_append, List.cons.injEq] at h
      obtain ⟨h1, -⟩ := h
      subst h1
      exact absurd (List.mem_cons_self _ _) hb
  | cons x as ih =>
    intro b c d ha hb h
    cases b with
    | nil =>
      simp only [List.cons_append, List.nil_append, List.cons.injEq] at h
      obtain ⟨h1, -⟩ := h
      subst h1
      exact absurd (List.mem_cons_self _ _) ha
    | cons y bs =>
      simp only [List.cons_append, List.cons.injEq] at h
      obtain ⟨h1, h2⟩ := h
      have ha2 : '#' ∉ as := fun hm => ha (List.mem_cons_of_mem _ hm)
      have hb2 : '#' ∉ bs := fun hm => hb (List.mem_cons_of_mem _ hm)
      obtain ⟨e1, e2⟩ := ih bs c d ha2 hb2 h2
      exact ⟨by rw [h1, e1], e2⟩

theorem hashSeg_pref (a : List Char) :
    ∀ (b c : List Char), '#' ∉ a → '#' ∉ b →
      ((a ++ ['#']) <+: (b ++ '#' :: c) ↔ a = b) := by
  induction a with
  | nil =>
    intro b c _ hb
    constructor
    · intro hp
      cases b with
      | nil => rfl
      | cons y bs =>
        simp only [List.nil_append, List.cons_append] at hp
        obtain ⟨h1, -⟩ := List.cons_prefix_cons.mp hp
        subst h1
        exact absurd (List.mem_cons_self _ _) hb
    · rintro rfl
      exact ⟨c, rfl⟩
  | cons x as ih =>
    intro b c ha hb
    cases b with
    | nil =>
      constructor
      · intro hp
        simp only [List.cons_append, List.nil_append] at hp
        obtain ⟨h1, -⟩ := List.cons_prefix_cons.mp hp
        subst h1
        exact absurd (List.mem_cons_self _ _) ha
      · intro h
        exact absurd h (by simp)
    | cons y bs =>
      have ha2 : '#' ∉ as := fun hm => ha (List.mem_cons_of_mem _ hm)
      have hb2 : '#' ∉ bs := fun hm => hb (List.mem_cons_of_mem _ hm)
      constructor
      · intro hp
        simp only [List.cons_append] at hp
        obtain ⟨h1, h2⟩ := List.cons_prefix_cons.mp hp
        rw [h1, (ih bs c ha2 hb2).mp h2]
      · intro h
        injection h with h1 h2
        subst h1; subst h2
        simp only [List.cons_append]
        exact List.cons_prefix_cons.mpr ⟨rfl, (ih as c ha2 ha2).mpr rfl⟩

theorem pref_cancel_left (p q r : List Char) : (p ++ q <+: p ++ r) ↔ q <+: r := by
  constructor
  · rintro ⟨t, ht⟩
    rw [List.append_assoc] at ht
    exact ⟨t, List.append_cancel_left ht⟩
  · rintro ⟨t, ht⟩
    exact ⟨t, by rw [List.append_assoc, ht]⟩

theorem mkId_fields (i : InteractionRec) (hwf : wfInteraction i) (ty u : Str) (ts : Nat)
    (hty : ty = likeT ∨ ty = commentT) (hu : '#' ∉ u)
    (h : i.interaction_id = mkInteractionId ty u ts) :
    i.interaction_type = ty ∧ i.user_id = u ∧ i.created_at = ts := by
  rw [hwf.1] at h
  unfold mkInteractionId at h
  have hityf : '#' ∉ i.interaction_type := by
    rcases hwf.2.1 with h2 | h2 <;> rw [h2] <;> decide
  have htyf : '#' ∉ ty := by
    rcases hty with h2 | h2 <;> rw [h2] <;> decide
  obtain ⟨e1, e2⟩ := hashSeg_eq i.interaction_type ty _ _ hityf htyf h
  obtain ⟨e3, e4⟩ := hashSeg_eq i.user_id u _ _ hwf.2.2 hu e2
  exact ⟨e1, e3, tsChars_inj e4⟩

theorem mkId_ne_of_user_ne {A B : Str} (hA : '#' ∉ A) (hB : '#' ∉ B) (hne : A ≠ B)
    (t1 t2 : Nat) : mkInteractionId likeT A t1 ≠ mkInteractionId likeT B t2 := by
  intro h
  unfold mkInteractionId at h
  obtain ⟨-, e2⟩ := hashSeg_eq likeT likeT _ _ (by decide) (by decide) h
  obtain ⟨e3, -⟩ := hashSeg_eq A B _ _ hA hB e2
  exact hne e3

/-! ### Characterizing the like-existence query -/

theorem likeHead_pref_iff (u v t : Str) (hu : '#' ∉ u) (hv : '#' ∉ v) :
    ((likeT ++ '#' :: (u ++ ['#'])) <+: (likeT ++ '#' :: (v ++ '#' :: t))) ↔ u = v := by
  have h1 : likeT ++ '#' :: (u ++ ['#']) = (likeT ++ ['#']) ++ (u ++ ['#']) := by simp
  have h2 : likeT ++ '#' :: (v ++ '#' :: t) = (likeT ++ ['#']) ++ (v ++ '#' :: t) := by simp
  rw [h1, h2, pref_cancel_left, hashSeg_pref u v t hu hv]

theorem beginsWith_likeIdHead (u : Str) (hu : '#' ∉ u) (i : InteractionRec)
    (hwf : wfInteraction i) :
    (beginsWith i.interaction_id (likeIdHead u) = true ↔
      (i.interaction_type = likeT ∧ i.user_id = u)) := by
  unfold beginsWith likeIdHead
  rw [ List.isPrefixOf_iff_prefix, hwf.1]
  unfold mkInteractionId
  rcases hwf.2.1 with hty | hty <;> rw [hty]
  · rw [likeHead_pref_iff u i.user_id (tsChars i.created_at) hu hwf.2.2]
    constructor
    · intro h; exact ⟨rfl, h.symm⟩
    · intro h; exact h.2.symm
  · constructor
    · intro hp
      rcases hp with ⟨t, ht⟩
      have h2 : (some 'l' : Option Char) = some 'c' := congrArg List.head? ht
      exact absurd h2 (by decide)
    · intro h
      exact absurd h.1 (by decide)

theorem gul_aux (p u : Str) (hu : '#' ∉ u) :
    ∀ (l : List InteractionRec), (∀ i ∈ l, wfInteraction i) →
      ((l.filter (fun i => i.post_id == p)).find?
          (fun i => beginsWith i.interaction_id (likeIdHead u))
        = (l.filter (fun i => i.post_id == p && i.interaction_type == likeT
            && i.user_id == u)).head?) := by
  intro l
  induction l with
  | nil => intro _; rfl
  | cons i l ih =>
    intro hwf
    have hwfi := hwf i (List.mem_cons_self _ _)
    have ihl := ih (fun j hj => hwf j (List.mem_cons_of_mem _ hj))
    by_cases hpost : i.post_id = p
    · by_cases hty : i.interaction_type = likeT
      · by_cases huid : i.user_id = u
        · have hb : beginsWith i.interaction_id (likeIdHead u) = true :=
            (beginsWith_likeIdHead u hu i hwfi).mpr ⟨hty, huid⟩
          simp [List.filter_cons, List.find?_cons, hpost, hty, huid, hb]
        · have hb : beginsWith i.interaction_id (likeIdHead u) = false := by
            rw [Bool.eq_false_iff]
            intro hbt
            exact huid ((beginsWith_likeIdHead u hu i hwfi).mp hbt).2
          simp [List.filter_cons, List.find?_cons, hpost, hty, huid, hb, ihl]
      · have hb : beginsWith i.interaction_id (likeIdHead u) = false := by
          rw [Bool.eq_false_iff]
          intro hbt
          exact hty ((beginsWith_likeIdHead u hu i hwfi).mp hbt).1
        simp [List.filter_cons, List.find?_cons, hpost, hty, hb, ihl]
    · simp [List.filter_cons, hpost, ihl]

theorem get_user_like_eq (st : Store) (p u : Str)
    (hwf : ∀ i ∈ st.interactions, wfInteraction i) (hu : '#' ∉ u) :
    Interaction.get_user_like st p u = (pairLikes st p u).head? := by
  unfold Interaction.get_user_like pairLikes
  exact gul_aux p u hu st.interactions hwf

/-! ### Effect of the atomic counter update on `get_by_id` -/

theorem find?_update_self (p : Str) (ld cd : Int) :
    ∀ (l : List PostRec) (post : PostRec),
      l.find? (fun r => r.post_id == p) = some post →
      (l.map (fun r => if r.post_id == p then
          { r with likes_count := r.likes_count + ld, comments_count := r.comments_count + cd }
        else r)).find? (fun r => r.post_id == p)
        = some { post with likes_count := post.likes_count + ld,
                           comments_count := post.comments_count + cd } := by
  intro l
  induction l with
  | nil => intro post h; simp at h
  | cons r l ih =>
    intro post h
    by_cases hp : r.post_id = p
    · have hb : (r.post_id == p) = true := by simp [hp]
      rw [@List.find?_cons_of_pos _ (fun x : PostRec => x.post_id == p) _ _ hb] at h
      injection h with h2
      subst h2
      simp only [List.map_cons]
      rw [if_pos hb]
      exact @List.find?_cons_of_pos _ (fun x : PostRec => x.post_id == p) _ _ hb
    · have hb : ¬ ((r.post_id == p) = true) := by simp [hp]
      rw [@List.find?_cons_of_neg _ (fun x : PostRec => x.post_id == p) _ _ hb] at h
      simp only [List.map_cons]
      rw [if_neg hb]
      rw [@List.find?_cons_of_neg _ (fun x : PostRec => x.post_id == p) _ _ hb]
      exact ih post h

theorem get_by_id_update_self (st : Store) (p : Str) (ld cd : Int) (post : PostRec)
    (h : Post.get_by_id st p = some post) :
    Post.get_by_id (Post.update_counts st p ld cd) p =
      some { post with likes_count := post.likes_count + ld,
                       comments_count := post.comments_count + cd } := by
  unfold Post.get_by_id Post.update_counts
  exact find?_update_self p ld cd st.posts post h

theorem pairLikes_nil (st : Store) (p u : Str) (h : likesOnPost st p = []) :
    pairLikes st p u = [] := by
  rw [List.eq_nil_iff_forall_not_mem]
  intro i hi
  unfold pairLikes at hi
  rw [List.mem_filter] at hi
  have hmem : i ∈ likesOnPost st p := by
    unfold likesOnPost
    rw [List.mem_filter]
    refine ⟨hi.1, ?_⟩
    have h2 := hi.2
    simp only [Bool.and_eq_true, beq_iff_eq] at h2 ⊢
    exact ⟨h2.1.1, h2.1.2⟩
  rw [h] at hmem
  exact absurd hmem (List.not_mem_nil _)

theorem pairLikes_mem (st : Store) (p u : Str) (i : InteractionRec)
    (h : i ∈ pairLikes st p u) :
    i ∈ st.interactions ∧ i.post_id = p ∧ i.interaction_type = likeT ∧ i.user_id = u := by
  unfold pairLikes at h
  rw [List.mem_filter] at h
  have h2 := h.2
  simp only [Bool.and_eq_true, beq_iff_eq] at h2
  exact ⟨h.1, h2.1.1, h2.1.2, h2.2⟩

/-! ### The two branches of `toggle_like` -/

theorem likeStep_inter (st : Store) (u p : Str) :
    (likeStepStore st u p).interactions
      = st.interactions ++ [newInteraction st p u likeT []] := rfl

theorem unlikeStep_inter (st : Store) (p iid : Str) :
    (unlikeStepStore st p iid).interactions = deleteByKey st.interactions p iid := rfl

theorem likeStep_WF (st : Store) (u p : Str) (hwf : WF st) (hu : '#' ∉ u) :
    WF (likeStepStore st u p) := by
  constructor
  · intro i hi
    rw [likeStep_inter, List.mem_append] at hi
    rcases hi with hi | hi
    · exact hwf.1 i hi
    · rw [List.mem_singleton] at hi
      subst hi
      exact ⟨rfl, Or.inl rfl, hu⟩
  · intro i hi
    rw [likeStep_inter, List.mem_append] at hi
    show i.created_at < st.now + 1
    rcases hi with hi | hi
    · exact Nat.lt_succ_of_lt (hwf.2 i hi)
    · rw [List.mem_singleton] at hi
      subst hi
      exact Nat.lt_succ_self _

theorem unlikeStep_WF (st : Store) (p iid : Str) (hwf : WF st) :
    WF (unlikeStepStore st p iid) := by
  constructor
  · intro i hi
    rw [unlikeStep_inter] at hi
    unfold deleteByKey at hi
    exact hwf.1 i (List.mem_filter.mp hi).1
  · intro i hi
    rw [unlikeStep_inter] at hi
    unfold deleteByKey at hi
    show i.created_at < st.now
    exact hwf.2 i (List.mem_filter.mp hi).1

theorem likeStep_post (st : Store) (u p : Str) (post : PostRec)
    (hpost : Post.get_by_id st p = some post) :
    Post.get_by_id (likeStepStore st u p) p =
      some { post with likes_count := post.likes_count + 1 } := by
  unfold likeStepStore
  have h2 : Post.get_by_id
      { st with interactions := st.interactions ++ [newInteraction st p u likeT []],
                now := st.now + 1 } p = some post := hpost
  rw [get_by_id_update_self _ p 1 0 post h2]
  simp

theorem unlikeStep_post (st : Store) (p iid : Str) (post : PostRec)
    (hpost : Post.get_by_id st p = some post) :
    Post.get_by_id (unlikeStepStore st p iid) p =
      some { post with likes_count := post.likes_count - 1 } := by
  unfold unlikeStepStore
  have h2 : Post.get_by_id
      { st with interactions := deleteByKey st.interactions p iid } p = some post := hpost
  rw [get_by_id_update_self _ p (-1) 0 post h2]
  have e1 : post.likes_count + (-1) = post.likes_count - 1 := by omega
  have e2 : post.comments_count + 0 = post.comments_count := by omega
  rw [e1, e2]

theorem likeStep_pair (st : Store) (u p : Str) (hpl : pairLikes st p u = []) :
    pairLikes (likeStepStore st u p) p u = [newInteraction st p u likeT []] := by
  unfold pairLikes at hpl ⊢
  rw [likeStep_inter, List.filter_append, hpl]
  simp [newInteraction]

theorem unlikeStep_pair (st : Store) (u p : Str) (l : InteractionRec)
    (hpl : pairLikes st p u = [l]) :
    pairLikes (unlikeStepStore st p l.interaction_id) p u = [] := by
  have hl : l ∈ pairLikes st p u := by rw [hpl]; exact List.mem_singleton.mpr rfl
  have hlp : l.post_id = p := (pairLikes_mem st p u l hl).2.1
  rw [List.eq_nil_iff_forall_not_mem]
  intro i hi
  unfold pairLikes at hi
  rw [unlikeStep_inter] at hi
  rw [List.mem_filter] at hi
  obtain ⟨hmem, hpred⟩ := hi
  unfold deleteByKey at hmem
  rw [List.mem_filter] at hmem
  obtain ⟨hmem2, hkey⟩ := hmem
  have h2 : i ∈ pairLikes st p u := by
    unfold pairLikes
    rw [List.mem_filter]
    exact ⟨hmem2, hpred⟩
  rw [hpl] at h2
  have hil : i = l := List.mem_singleton.mp h2
  subst hil
  simp [hlp] at hkey

theorem toggle_like_not_liked (st : Store) (u p : Str) (post : PostRec)
    (hwf : WF st) (hu : '#' ∉ u) (hpost : Post.get_by_id st p = some post)
    (hpl : pairLikes st p u = []) :
    toggle_like st u p =
      (.ok { liked := true, likes_count := post.likes_count + 1, message := "いいねしました" },
       likeStepStore st u p) := by
  have hgul : Interaction.get_user_like st p u = none := by
    rw [get_user_like_eq st p u hwf.1 hu, hpl]; rfl
  have hfresh : (st.interactions.any (fun j =>
      j.post_id == (newInteraction st p u likeT []).post_id
        && j.interaction_id == (newInteraction st p u likeT []).interaction_id)) = false := by
    rw [List.any_eq_false]
    intro j hj
    simp only [newInteraction, Bool.and_eq_true, beq_iff_eq, not_and]
    intro hjp hjid
    obtain ⟨e1, e2, -⟩ := mkId_fields j (hwf.1 j hj) likeT u st.now (Or.inl rfl) hu hjid
    have h2 : j ∈ pairLikes st p u := by
      unfold pairLikes
      rw [List.mem_filter]
      refine ⟨hj, ?_⟩
      simp [hjp, e1, e2]
    rw [hpl] at h2
    exact absurd h2 (List.not_mem_nil _)
  unfold toggle_like
  simp only [hpost, hgul]
  unfold likeStepStore saveInteraction putInteraction
  rw [if_neg (by simp [hfresh])]

theorem toggle_like_liked (st : Store) (u p : Str) (post : PostRec) (l : InteractionRec)
    (hwf : WF st) (hu : '#' ∉ u) (hpost : Post.get_by_id st p = some post)
    (hpl : pairLikes st p u = [l]) :
    toggle_like st u p =
      (.ok { liked := false, likes_count := post.likes_count - 1,
             message := "いいねを取り消しました" },
       unlikeStepStore st p l.interaction_id) := by
  have hgul : Interaction.get_user_like st p u = some l := by
    rw [get_user_like_eq st p u hwf.1 hu, hpl]; rfl
  unfold toggle_like
  simp only [hpost, hgul]
  unfold Interaction.delete_like
  simp only [hgul]
  unfold unlikeStepStore
  rfl

/-! ### Alternation of N consecutive toggles -/

theorem toggleN_run (u p : Str) (hu : '#' ∉ u) :
    ∀ (N : Nat) (st : Store) (post : PostRec), WF st →
      Post.get_by_id st p = some post →
      ((pairLikes st p u = [] →
        (toggleN st u p N).1 = expectedToggles post.likes_count true N
        ∧ Post.get_by_id (toggleN st u p N).2 p =
            some { post with likes_count := post.likes_count + (if N % 2 = 0 then 0 else 1) })
      ∧ (∀ l, pairLikes st p u = [l] →
        (toggleN st u p N).1 = expectedToggles post.likes_count false N
        ∧ Post.get_by_id (toggleN st u p N).2 p =
            some { post with likes_count := post.likes_count + (if N % 2 = 0 then 0 else -1) })) := by
  intro N
  induction N with
  | zero =>
    intro st post hwf hpost
    constructor
    · intro hpl
      exact ⟨rfl, by simpa [toggleN] using hpost⟩
    · intro l hpl
      exact ⟨rfl, by simpa [toggleN] using hpost⟩
  | succ n ih =>
    intro st post hwf hpost
    constructor
    · intro hpl
      have hstep := toggle_like_not_liked st u p post hwf hu hpost hpl
      have hwf2 := likeStep_WF st u p hwf hu
      have hpost2 := likeStep_post st u p post hpost
      have hpl2 := likeStep_pair st u p hpl
      obtain ⟨hres, hcount⟩ :=
        (ih (likeStepStore st u p) { post with likes_count := post.likes_count + 1 }
          hwf2 hpost2).2 (newInteraction st p u likeT []) hpl2
      constructor
      · simp only [toggleN, hstep]
        rw [hres]
        simp [expectedToggles]
      · simp only [toggleN, hstep]
        rw [hcount]
        have hpar : ((n + 1) % 2 = 0 ∧ n % 2 = 1) ∨ ((n + 1) % 2 = 1 ∧ n % 2 = 0) := by omega
        rcases hpar with ⟨h1, h2⟩ | ⟨h1, h2⟩ <;> simp [h1, h2] <;> omega
    · intro l hpl
      have hstep := toggle_like_liked st u p post l hwf hu hpost hpl
      have hwf2 := unlikeStep_WF st p l.interaction_id hwf
      have hpost2 := unlikeStep_post st p l.interaction_id post hpost
      have hpl2 := unlikeStep_pair st u p l hpl
      obtain ⟨hres, hcount⟩ :=
        (ih (unlikeStepStore st p l.interaction_id)
          { post with likes_count := post.likes_count - 1 } hwf2 hpost2).1 hpl2
      constructor
      · simp only [toggleN, hstep]
        rw [hres]
        simp [expectedToggles]
      · simp only [toggleN, hstep]
        rw [hcount]
        have hpar : ((n + 1) % 2 = 0 ∧ n % 2 = 1) ∨ ((n + 1) % 2 = 1 ∧ n % 2 = 0) := by omega
        rcases hpar with ⟨h1, h2⟩ | ⟨h1, h2⟩ <;> simp [h1, h2] <;> omega

theorem expectedToggles_get :
    ∀ (n : Nat) (c : Int) (k : Nat), k < n →
      ((expectedToggles c true n).get? k =
        some (.ok { liked := decide (k % 2 = 0),
                    likes_count := c + (if k % 2 = 0 then 1 else 0),
                    message := if k % 2 = 0 then "いいねしました" else "いいねを取り消しました" })
      ∧ (expectedToggles c false n).get? k =
        some (.ok { liked := decide (k % 2 = 1),
                    likes_count := c + (if k % 2 = 0 then -1 else 0),
                    message := if k % 2 = 0 then "いいねを取り消しました" else "いいねしました" })) := by
  intro n
  induction n with
  | zero => intro c k hk; omega
  | succ n ih =>
    intro c k hk
    match k with
    | 0 =>
      constructor <;> simp [expectedToggles] <;> omega
    | k + 1 =>
      have hk2 : k < n := by omega
      obtain ⟨ih1, ih2⟩ := ih (c + 1) k hk2
      obtain ⟨ih3, ih4⟩ := ih (c - 1) k hk2
      have hpar : ((k + 1) % 2 = 0 ∧ k % 2 = 1) ∨ ((k + 1) % 2 = 1 ∧ k % 2 = 0) := by omega
      constructor
      · have hu1 : (expectedToggles c true (n + 1)).get? (k + 1)
            = (expectedToggles (c + 1) false n).get? k := by
          simp [expectedToggles]
        rw [hu1, ih2]
        rcases hpar with ⟨h1, h2⟩ | ⟨h1, h2⟩ <;> simp [h1, h2] <;> omega
      · have hu2 : (expectedToggles c false (n + 1)).get? (k + 1)
            = (expectedToggles (c - 1) true n).get? k := by
          simp [expectedToggles]
        rw [hu2, ih3]
        rcases hpar with ⟨h1, h2⟩ | ⟨h1, h2⟩ <;> simp [h1, h2] <;> omega

/-! ### Claim C1 -/

/-- C1, counterexample to the claim as stated: in a state holding a live like
by user `a#b` (no live like for the pair `(P, a)` exists), user `a`'s first
toggle — N = 1, odd — returns `liked = false` and decrements the count,
because the key condition `begins_with(interaction_id, "like#a#")` also
matches `like#a#b#0`.  The claim requires `liked = (1 is odd) = true`. -/
theorem C1_counterexample :
    Post.get_by_id c1St ['P'] = some c1Post
    ∧ pairLikes c1St ['P'] ['a'] = []
    ∧ (toggleN c1St ['a'] ['P'] 1).1 =
        [.ok { liked := false, likes_count := 0, message := "いいねを取り消しました" }] := by
  decide

/-- C1 (amended): for every well-formed state, user whose id contains no `'#'`
and existing post with no live like for the pair, N consecutive sequential
`toggle_like` calls return the alternating sequence
`liked = true, false, true, …` (the k-th call, 0-based, returns
`liked = (k even)`, i.e. the N-th returns `liked = (N odd)`) with the returned
count moving by `+1` on a like and `-1` on an unlike, and the stored
`likes_count` returns to its initial value after an even number of calls. -/
theorem C1_toggle_alternation (st : Store) (u p : Str) (post : PostRec) (N : Nat)
    (hwf : WF st) (hu : '#' ∉ u)
    (hpost : Post.get_by_id st p = some post)
    (hpl : pairLikes st p u = []) :
    (toggleN st u p N).1 = expectedToggles post.likes_count true N
    ∧ (∀ k, k < N → (toggleN st u p N).1.get? k =
        some (.ok { liked := decide (k % 2 = 0),
                    likes_count := post.likes_count + (if k % 2 = 0 then 1 else 0),
                    message := if k % 2 = 0 then "いいねしました" else "いいねを取り消しました" }))
    ∧ Post.get_by_id (toggleN st u p N).2 p =
        some { post with likes_count := post.likes_count + (if N % 2 = 0 then 0 else 1) } := by
  obtain ⟨h1, h2⟩ := (toggleN_run u p hu N st post hwf hpost).1 hpl
  refine ⟨h1, ?_, h2⟩
  intro k hk
  rw [h1]
  exact (expectedToggles_get N post.likes_count k hk).1

/-- C1 witness: the amended theorem applied to a concrete store (one post with
`likes_count = 0`, no interactions) and N = 2. -/
theorem C1_witness :
    (toggleN w1St ['a'] ['P'] 2).1 = expectedToggles 0 true 2
    ∧ Post.get_by_id (toggleN w1St ['a'] ['P'] 2).2 ['P'] =
        some { wPost0 with likes_count := 0 + (if 2 % 2 = 0 then 0 else 1) } := by
  have h := C1_toggle_alternation w1St ['a'] ['P'] wPost0 2
    (by decide) (by decide) (by decide) (by decide)
  exact ⟨h.1, h.2.2⟩

/-! ### Claim C5 -/

theorem likeStep_pair_keep (st : Store) (u v p : Str) (hvu : v ≠ u) :
    pairLikes (likeStepStore st u p) p v = pairLikes st p v := by
  have huv : u ≠ v := fun h => hvu h.symm
  unfold pairLikes
  rw [likeStep_inter, List.filter_append]
  simp [newInteraction, huv]

theorem filter_keep {α : Type} (pred notkey : α → Bool) :
    ∀ (l : List α), (∀ i ∈ l, pred i = true → notkey i = true) →
      (l.filter notkey).filter pred = l.filter pred := by
  intro l
  induction l with
  | nil => intro _; rfl
  | cons i l ih =>
    intro h
    have hl := ih (fun j hj => h j (List.mem_cons_of_mem _ hj))
    by_cases hp : pred i = true
    · have hk := h i (List.mem_cons_self _ _) hp
      simp [List.filter_cons, hp, hk, hl]
    · by_cases hk : notkey i = true <;> simp [List.filter_cons, hp, hk, hl]

theorem unlikeStep_pair_keep (st : Store) (p v iid : Str)
    (h : ∀ i ∈ pairLikes st p v, (i.interaction_id == iid) = false) :
    pairLikes (unlikeStepStore st p iid) p v = pairLikes st p v := by
  unfold pairLikes at h ⊢
  rw [unlikeStep_inter]
  unfold deleteByKey
  apply filter_keep
  intro i hi hp
  have hmem : i ∈ st.interactions.filter (fun i => i.post_id == p
      && i.interaction_type == likeT && i.user_id == v) :=
    List.mem_filter.mpr ⟨hi, hp⟩
  have hid := h i hmem
  simp [hid]

/-- C5, counterexample to the claim as stated: two distinct users `a#b` and
`a`; after `a#b` likes the post, user `a`'s toggle matches `a#b`'s like via
the `begins_with(interaction_id, "like#a#")` key condition, so the second
call of the claimed scenario returns `{liked := false, likes_count := 0}`
instead of `{liked := true, likes_count := 2}` — and it deletes the other
user's like. -/
theorem C5_counterexample :
    (['a', '#', 'b'] : Str) ≠ ['a']
    ∧ Post.get_by_id c5St ['P'] = some wPost0
    ∧ wPost0.likes_count = 0
    ∧ likesOnPost c5St ['P'] = []
    ∧ (toggle_like c5St ['a', '#', 'b'] ['P']).1 =
        .ok { liked := true, likes_count := 1, message := "いいねしました" }
    ∧ (toggle_like (toggle_like c5St ['a', '#', 'b'] ['P']).2 ['a'] ['P']).1 =
        .ok { liked := false, likes_count := 0, message := "いいねを取り消しました" } := by
  decide

/-- C5 (amended): for distinct users A and B whose ids contain no `'#'`, in a
well-formed state whose post P exists with `likes_count = 0` and no live
likes, the sequence toggle(A); toggle(B); toggle(A) returns
`{liked: true, 1}`, `{liked: true, 2}`, `{liked: false, 1}`, after which A's
like status is false and B's is true: one user's unlike does not change the
other's status. -/
theorem C5_like_isolation (st : Store) (A B p : Str) (post : PostRec)
    (hwf : WF st) (hA : '#' ∉ A) (hB : '#' ∉ B) (hAB : A ≠ B)
    (hpost : Post.get_by_id st p = some post) (hc : post.likes_count = 0)
    (hlp : likesOnPost st p = []) :
    (toggle_like st A p).1 = .ok { liked := true, likes_count := 1, message := "いいねしました" }
    ∧ (toggle_like (toggle_like st A p).2 B p).1 =
        .ok { liked := true, likes_count := 2, message := "いいねしました" }
    ∧ (toggle_like (toggle_like (toggle_like st A p).2 B p).2 A p).1 =
        .ok { liked := false, likes_count := 1, message := "いいねを取り消しました" }
    ∧ get_user_like_status false
        (toggle_like (toggle_like (toggle_like st A p).2 B p).2 A p).2 A p = false
    ∧ get_user_like_status false
        (toggle_like (toggle_like (toggle_like st A p).2 B p).2 A p).2 B p = true := by
  have hBA : B ≠ A := fun h => hAB h.symm
  have hplA : pairLikes st p A = [] := pairLikes_nil st p A hlp
  have hplB : pairLikes st p B = [] := pairLikes_nil st p B hlp
  -- step 1: A likes
  have hstep1 := toggle_like_not_liked st A p post hwf hA hpost hplA
  have hwf1 := likeStep_WF st A p hwf hA
  have hpost1 := likeStep_post st A p post hpost
  have hpairA1 := likeStep_pair st A p hplA
  have hpairB1 : pairLikes (likeStepStore st A p) p B = [] := by
    rw [likeStep_pair_keep st A B p hBA]; exact hplB
  -- step 2: B likes
  have hstep2 := toggle_like_not_liked (likeStepStore st A p) B p
    { post with likes_count := post.likes_count + 1 } hwf1 hB hpost1 hpairB1
  have hwf2 := likeStep_WF (likeStepStore st A p) B p hwf1 hB
  have hpost2 := likeStep_post (likeStepStore st A p) B p
    { post with likes_count := post.likes_count + 1 } hpost1
  have hpairA2 : pairLikes (likeStepStore (likeStepStore st A p) B p) p A
      = [newInteraction st p A likeT []] := by
    rw [likeStep_pair_keep (likeStepStore st A p) B A p hAB]; exact hpairA1
  have hpairB2 := likeStep_pair (likeStepStore st A p) B p hpairB1
  -- step 3: A unlikes its own like
  have hstep3 := toggle_like_liked (likeStepStore (likeStepStore st A p) B p) A p
    { { post with likes_count := post.likes_count + 1 }
        with likes_count := { post with likes_count := post.likes_count + 1 }.likes_count + 1 }
    (newInteraction st p A likeT []) hwf2 hA hpost2 hpairA2
  have hwf3 := unlikeStep_WF (likeStepStore (likeStepStore st A p) B p) p
    (newInteraction st p A likeT []).interaction_id hwf2
  have hpairA3 := unlikeStep_pair (likeStepStore (likeStepStore st A p) B p) A p
    (newInteraction st p A likeT []) hpairA2
  have hpairB3 : pairLikes (unlikeStepStore (likeStepStore (likeStepStore st A p) B p) p
      (newInteraction st p A likeT []).interaction_id) p B
      = [newInteraction (likeStepStore st A p) p B likeT []] := by
    rw [unlikeStep_pair_keep _ p B _ ?_]
    · exact hpairB2
    · intro i hi
      rw [hpairB2] at hi
      have hi2 : i = newInteraction (likeStepStore st A p) p B likeT [] :=
        List.mem_singleton.mp hi
      subst hi2
      rw [beq_eq_false_iff_ne]
      show mkInteractionId likeT B _ ≠ mkInteractionId likeT A _
      exact mkId_ne_of_user_ne hB hA hBA _ _
  -- assemble
  have hs1 : (toggle_like st A p).2 = likeStepStore st A p := by rw [hstep1]
  have hs2 : (toggle_like (likeStepStore st A p) B p).2
      = likeStepStore (likeStepStore st A p) B p := by rw [hstep2]
  have hs3 : (toggle_like (likeStepStore (likeStepStore st A p) B p) A p).2
      = unlikeStepStore (likeStepStore (likeStepStore st A p) B p) p
          (newInteraction st p A likeT []).interaction_id := by rw [hstep3]
  refine ⟨?_, ?_, ?_, ?_, ?_⟩
  · rw [hstep1]; simp [hc]
  · rw [hs1, hstep2]; simp [hc]
  · rw [hs1, hs2, hstep3]; simp [hc]
  · rw [hs1, hs2, hs3]
    show (Interaction.get_user_like _ p A).isSome = false
    rw [get_user_like_eq _ p A hwf3.1 hA, hpairA3]
    rfl
  · rw [hs1, hs2, hs3]
    show (Interaction.get_user_like _ p B).isSome = true
    rw [get_user_like_eq _ p B hwf3.1 hB, hpairB3]
    rfl

/-- C5 witness for the amended theorem: concrete store, users `a`, `b`. -/
theorem C5_witness :
    (toggle_like w1St ['a'] ['P']).1 =
      .ok { liked := true, likes_count := 1, message := "いいねしました" }
    ∧ get_user_like_status false
        (toggle_like (toggle_like (toggle_like w1St ['a'] ['P']).2 ['b'] ['P']).2 ['a'] ['P']).2
        ['b'] ['P'] = true := by
  have h := C5_like_isolation w1St ['a'] ['b'] ['P'] wPost0
    (by decide) (by decide) (by decide) (by decide) (by decide) (by decide) (by decide)
  exact ⟨h.1, h.2.2.2.2⟩

/-! ### Claim C7 -/

/-- C7: when no Post with `post_id` exists, `toggle_like` raises `NotFound`
and the returned store is exactly the input store: no Interaction is created
or deleted and no counter is modified. -/
theorem C7_toggle_missing_post (st : Store) (uid pid : Str)
    (h : Post.get_by_id st pid = none) :
    toggle_like st uid pid = (.error (.notFound "投稿が見つかりません"), st) := by
  unfold toggle_like
  simp only [h]

/-- C7 witness: concrete store without the requested post. -/
theorem C7_witness :
    toggle_like w1St ['u'] ['Q'] = (.error (.notFound "投稿が見つかりません"), w1St) :=
  C7_toggle_missing_post w1St ['u'] ['Q'] (by decide)

/-! ### Claim C10 -/

/-- C10: `get_user_like_status` is a total Boolean function: when the
underlying store query raises (`fault = true`) the bare `except` handler
reports `False` instead of propagating; when the query succeeds it reports
whether a matching like exists.  In contrast, the write operation
`toggle_like` has no handler, so the same store fault propagates to the
caller as an error. -/
theorem C10_like_status_never_raises (st : Store) (uid pid : Str) :
    get_user_like_status true st uid pid = false
    ∧ get_user_like_status false st uid pid = (Interaction.get_user_like st pid uid).isSome
    ∧ toggle_like_faulty true st uid pid =
        (.error (.database "データベース操作エラー: toggle_like"), st) :=
  ⟨rfl, rfl, rfl⟩

/-! ### Claim C2 -/

/-- C2: `add_comment` validates in order — blank content, then trimmed length
over 500, then missing post, then missing user — raising `Validation`,
`Validation`, `NotFound`, `NotFound` respectively, each failure leaving the
store untouched; and with valid post and user a comment of trimmed length
exactly 500 succeeds. -/
theorem C2_add_comment_validation (st : Store) (uid pid : Str) (content : Str) :
    (pyStrip content = [] →
      add_comment st uid pid content = (.error (.validation "コメント内容が必要です"), st))
    ∧ (pyStrip content ≠ [] → (pyStrip content).length > 500 →
      add_comment st uid pid content =
        (.error (.validation "コメントは500文字以内で入力してください"), st))
    ∧ (pyStrip content ≠ [] → (pyStrip content).length ≤ 500 →
      Post.get_by_id st pid = none →
      add_comment st uid pid content = (.error (.notFound "投稿が見つかりません"), st))
    ∧ (∀ post, pyStrip content ≠ [] → (pyStrip content).length ≤ 500 →
      Post.get_by_id st pid = some post → User.get_by_id st uid = none →
      add_comment st uid pid content = (.error (.notFound "ユーザーが見つかりません"), st))
    ∧ (∀ post user, (pyStrip content).length = 500 →
      Post.get_by_id st pid = some post → User.get_by_id st uid = some user →
      (add_comment st uid pid content).1 = .ok
        { comment := { interaction_id := mkInteractionId commentT uid st.now,
                       post_id := pid, user_id := uid, username := user.username,
                       content := pyStrip content, created_at := st.now },
          comments_count := post.comments_count + 1,
          message := "コメントを投稿しました" }) := by
  refine ⟨?_, ?_, ?_, ?_, ?_⟩
  · intro h
    simp [add_comment, h]
  · intro hne hlen
    have h1 : (content == []) = false := by
      rw [beq_eq_false_iff_ne]
      intro hc
      apply hne
      rw [hc]
      rfl
    have h2 : (pyStrip content == []) = false := by
      rw [beq_eq_false_iff_ne]; exact hne
    simp [add_comment, h1, h2, hlen]
  · intro hne hle hpost
    have h1 : (content == []) = false := by
      rw [beq_eq_false_iff_ne]
      intro hc
      apply hne
      rw [hc]
      rfl
    have h2 : (pyStrip content == []) = false := by
      rw [beq_eq_false_iff_ne]; exact hne
    have h3 : ¬ ((pyStrip content).length > 500) := by omega
    simp [add_comment, h1, h2, h3, hpost]
  · intro post hne hle hpost huser
    have h1 : (content == []) = false := by
      rw [beq_eq_false_iff_ne]
      intro hc
      apply hne
      rw [hc]
      rfl
    have h2 : (pyStrip content == []) = false := by
      rw [beq_eq_false_iff_ne]; exact hne
    have h3 : ¬ ((pyStrip content).length > 500) := by omega
    simp [add_comment, h1, h2, h3, hpost, huser]
  · intro post user hlen hpost huser
    have hne : pyStrip content ≠ [] := by
      intro h
      rw [h] at hlen
      simp at hlen
    have h1 : (content == []) = false := by
      rw [beq_eq_false_iff_ne]
      intro hc
      apply hne
      rw [hc]
      rfl
    have h2 : (pyStrip content == []) = false := by
      rw [beq_eq_false_iff_ne]; exact hne
    have h3 : ¬ ((pyStrip content).length > 500) := by omega
    simp [add_comment, h1, h2, h3, hpost, huser, newInteraction]

set_option maxRecDepth 4000 in
/-- C2 witness: the five branches at concrete inputs — whitespace-only
content, a 501-character comment, a missing post, a missing user, and a
500-character comment that succeeds. -/
theorem C2_witness :
    add_comment w4St ['u'] ['P'] "   ".data =
      (.error (.validation "コメント内容が必要です"), w4St)
    ∧ add_comment w4St ['u'] ['P'] (List.replicate 501 'a') =
      (.error (.validation "コメントは500文字以内で入力してください"), w4St)
    ∧ add_comment wUserOnlySt ['u'] ['P'] (List.replicate 500 'a') =
      (.error (.notFound "投稿が見つかりません"), wUserOnlySt)
    ∧ add_comment w1St ['u'] ['P'] (List.replicate 500 'a') =
      (.error (.notFound "ユーザーが見つかりません"), w1St)
    ∧ (add_comment w4St ['u'] ['P'] (List.replicate 500 'a')).1 = .ok
        { comment := { interaction_id := mkInteractionId commentT ['u'] 0,
                       post_id := ['P'], user_id := ['u'], username := "alice".data,
                       content := pyStrip (List.replicate 500 'a'), created_at := 0 },
          comments_count := 1,
          message := "コメントを投稿しました" } := by
  refine ⟨?_, ?_, ?_, ?_, ?_⟩
  · exact (C2_add_comment_validation w4St ['u'] ['P'] "   ".data).1 (by decide)
  · exact (C2_add_comment_validation w4St ['u'] ['P'] (List.replicate 501 'a')).2.1
      (by decide) (by decide)
  · exact (C2_add_comment_validation wUserOnlySt ['u'] ['P'] (List.replicate 500 'a')).2.2.1
      (by decide) (by decide) (by decide)
  · exact (C2_add_comment_validation w1St ['u'] ['P'] (List.replicate 500 'a')).2.2.2.1
      wPost0 (by decide) (by decide) (by decide) (by decide)
  · exact (C2_add_comment_validation w4St ['u'] ['P'] (List.replicate 500 'a')).2.2.2.2
      wPost0 { user_id := ['u'], username := "alice".data, profile_image := none }
      (by decide) (by decide) (by decide)

/-! ### Claim C4 -/

/-- C4: on valid input (non-blank trimmed content of at most 500 characters,
existing post, existing user — with the store well-formed and the user id
`'#'`-free, as the application guarantees), `add_comment` appends exactly one
new Interaction of type `comment` storing the trimmed content, bumps the
post's `comments_count` by exactly 1, and returns the comment data with the
username read from the live User record. -/
theorem C4_add_comment_success (st : Store) (uid pid : Str) (content : Str)
    (post : PostRec) (user : UserRec)
    (hwf : WF st) (hu : '#' ∉ uid)
    (hne : pyStrip content ≠ []) (hle : (pyStrip content).length ≤ 500)
    (hpost : Post.get_by_id st pid = some post)
    (huser : User.get_by_id st uid = some user) :
    add_comment st uid pid content =
      (.ok { comment := { interaction_id := mkInteractionId commentT uid st.now,
                          post_id := pid, user_id := uid, username := user.username,
                          content := pyStrip content, created_at := st.now },
             comments_count := post.comments_count + 1,
             message := "コメントを投稿しました" },
       commentStepStore st uid pid (pyStrip content))
    ∧ (newInteraction st pid uid commentT (pyStrip content)).interaction_type = commentT
    ∧ (newInteraction st pid uid commentT (pyStrip content)).content = some (pyStrip content)
    ∧ Post.get_by_id (add_comment st uid pid content).2 pid =
        some { post with comments_count := post.comments_count + 1 } := by
  have h1 : (content == []) = false := by
    rw [beq_eq_false_iff_ne]
    intro hc
    apply hne
    rw [hc]
    rfl
  have h2 : (pyStrip content == []) = false := by
    rw [beq_eq_false_iff_ne]; exact hne
  have h3 : ¬ ((pyStrip content).length > 500) := by omega
  have hfresh : (st.interactions.any (fun j =>
      j.post_id == (newInteraction st pid uid commentT (pyStrip content)).post_id
        && j.interaction_id ==
            (newInteraction st pid uid commentT (pyStrip content)).interaction_id)) = false := by
    rw [List.any_eq_false]
    intro j hj
    simp only [newInteraction, Bool.and_eq_true, beq_iff_eq, not_and]
    intro hjp hjid
    obtain ⟨-, -, e3⟩ := mkId_fields j (hwf.1 j hj) commentT uid st.now (Or.inr rfl) hu hjid
    have hlt := hwf.2 j hj
    omega
  have hput : putInteraction st.interactions (newInteraction st pid uid commentT (pyStrip content))
      = st.interactions ++ [newInteraction st pid uid commentT (pyStrip content)] := by
    unfold putInteraction
    rw [if_neg (by simp [hfresh])]
  have hmain : add_comment st uid pid content =
      (.ok { comment := { interaction_id := mkInteractionId commentT uid st.now,
                          post_id := pid, user_id := uid, username := user.username,
                          content := pyStrip content, created_at := st.now },
             comments_count := post.comments_count + 1,
             message := "コメントを投稿しました" },
       commentStepStore st uid pid (pyStrip content)) := by
    unfold commentStepStore
    simp only [add_comment, h1, h2, h3, hpost, huser, saveInteraction, Bool.or_self,
      Bool.false_eq_true, if_false, gt_iff_lt, Nat.lt_irrefl]
    rw [hput]
    simp [newInteraction, h2]
  refine ⟨hmain, rfl, ?_, ?_⟩
  · simp [newInteraction, h2]
  · rw [hmain]
    show Post.get_by_id (commentStepStore st uid pid (pyStrip content)) pid = _
    unfold commentStepStore
    have h5 : Post.get_by_id
        { st with
            interactions := st.interactions ++ [newInteraction st pid uid commentT (pyStrip content)],
            now := st.now + 1 } pid = some post := hpost
    rw [get_by_id_update_self _ pid 0 1 post h5]
    simp

/-- C4 witness: the comment `"  hello world  "` on a concrete store is stored
and returned trimmed, with `comments_count` going from 0 to 1. -/
theorem C4_witness :
    (add_comment w4St ['u'] ['P'] "  hello world  ".data).1 =
      .ok { comment := { interaction_id := mkInteractionId commentT ['u'] 0,
                         post_id := ['P'], user_id := ['u'], username := "alice".data,
                         content := "hello world".data, created_at := 0 },
            comments_count := 1,
            message := "コメントを投稿しました" } := by
  have h := C4_add_comment_success w4St ['u'] ['P'] "  hello world  ".data wPost0
    { user_id := ['u'], username := "alice".data, profile_image := none }
    (by decide) (by decide) (by decide) (by decide) (by decide) (by decide)
  exact congrArg Prod.fst h.1

/-! ### Claims C3 and C8 -/

theorem find?_unique_mem {α : Type} (pred : α → Bool) :
    ∀ (l : List α) (c : α), c ∈ l → pred c = true →
      (∀ b ∈ l, pred b = true → b = c) → l.find? pred = some c := by
  intro l
  induction l with
  | nil => intro c hc _ _; exact absurd hc (List.not_mem_nil _)
  | cons a l ih =>
    intro c hc hpc huniq
    by_cases hpa : pred a = true
    · have h2 : a = c := huniq a (List.mem_cons_self _ _) hpa
      subst h2
      exact List.find?_cons_of_pos _ hpa
    · have hc2 : c ∈ l := by
        rcases List.mem_cons.mp hc with h | h
        · exact absurd (h ▸ hpc) hpa
        · exact h
      rw [ List.find?_cons_of_neg l hpa]
      exact ih c hc2 hpc (fun b hb hpb => huniq b (List.mem_cons_of_mem _ hb) hpb)

theorem query_window (st : Store) (pid : Str)
    (hlen : (st.interactions.filter (fun i => i.post_id == pid)).length ≤ 50) :
    Interaction.get_post_interactions st pid (some commentT) 50
      = (st.interactions.filter (fun i => i.post_id == pid)).filter
          (fun i => i.interaction_type == commentT) := by
  simp only [Interaction.get_post_interactions]
  rw [List.take_of_length_le hlen]

theorem keys_inj (st : Store) (hk : KeysNodup st) (b c : InteractionRec)
    (hb : b ∈ st.interactions) (hc : c ∈ st.interactions)
    (hpb : b.post_id = c.post_id) (hib : b.interaction_id = c.interaction_id) : b = c := by
  unfold KeysNodup at hk
  exact List.inj_on_of_nodup_map hk hb hc (by rw [hpb, hib])

theorem comment_query_mem (st : Store) (pid : Str) (i : InteractionRec)
    (h : i ∈ Interaction.get_post_interactions st pid (some commentT) 50) :
    i ∈ st.interactions ∧ i.post_id = pid ∧ i.interaction_type = commentT := by
  simp only [Interaction.get_post_interactions] at h
  rw [List.mem_filter] at h
  obtain ⟨h1, h2⟩ := h
  have h3 := List.mem_of_mem_take h1
  rw [List.mem_filter] at h3
  refine ⟨h3.1, ?_, ?_⟩
  · have := h3.2; simpa using this
  · simpa using h2

theorem comment_query_found (st : Store) (uid pid iid : Str) (c : InteractionRec)
    (hk : KeysNodup st)
    (hlen : (st.interactions.filter (fun i => i.post_id == pid)).length ≤ 50)
    (hc : c ∈ st.interactions) (hcp : c.post_id = pid) (hct : c.interaction_type = commentT)
    (hci : c.interaction_id = iid) :
    (Interaction.get_post_interactions st pid (some commentT) 50).find?
      (fun x => x.interaction_id == iid) = some c := by
  rw [query_window st pid hlen]
  apply find?_unique_mem
  · rw [List.mem_filter, List.mem_filter]
    exact ⟨⟨hc, by simp [hcp]⟩, by simp [hct]⟩
  · simp [hci]
  · intro b hb hpb
    rw [List.mem_filter, List.mem_filter] at hb
    obtain ⟨⟨hbm, hbp⟩, hbt⟩ := hb
    apply keys_inj st hk b c hbm hc
    · rw [beq_iff_eq] at hbp
      rw [hbp, hcp]
    · rw [beq_iff_eq] at hpb
      rw [hpb, hci]

/-- C3, counterexample to the claim as stated: the post of `bigSt` has 51
comments; `delete_comment` retrieves the partition with the default
`Limit = 50`, so the 51st comment is outside the query window and deleting it
— by a non-author, which per the claim must raise `Validation` — raises
`NotFound` instead. -/
theorem C3_counterexample :
    bigComment 50 ∈ bigSt.interactions
    ∧ (bigComment 50).post_id = ['P']
    ∧ (bigComment 50).interaction_type = commentT
    ∧ (bigComment 50).interaction_id = bigTarget
    ∧ (bigComment 50).user_id ≠ ['a']
    ∧ delete_comment bigSt ['a'] ['P'] bigTarget =
        (.error (.notFound "コメントが見つかりません"), bigSt) := by
  decide

/-- C3 (amended): `delete_comment` raises `NotFound` whenever no comment-type
Interaction on the post has the given id (unconditionally), and raises
`Validation` when the caller differs from the author of a comment that the
`Limit = 50` query can reach (in particular whenever the post has at most 50
interactions); in both failure cases the returned store is exactly the input
store. -/
theorem C3_delete_comment_failures (st : Store) (uid pid iid : Str) :
    ((∀ i ∈ st.interactions, i.post_id = pid → i.interaction_type = commentT →
        i.interaction_id ≠ iid) →
      delete_comment st uid pid iid = (.error (.notFound "コメントが見つかりません"), st))
    ∧ (∀ c : InteractionRec, KeysNodup st →
      (st.interactions.filter (fun i => i.post_id == pid)).length ≤ 50 →
      c ∈ st.interactions → c.post_id = pid → c.interaction_type = commentT →
      c.interaction_id = iid → c.user_id ≠ uid →
      delete_comment st uid pid iid =
        (.error (.validation "自分のコメントのみ削除できます"), st)) := by
  constructor
  · intro h
    have hfind : (Interaction.get_post_interactions st pid (some commentT) 50).find?
        (fun x => x.interaction_id == iid) = none := by
      rw [List.find?_eq_none]
      intro x hx
      obtain ⟨h1, h2, h3⟩ := comment_query_mem st pid x hx
      simp [h x h1 h2 h3]
    simp [delete_comment, hfind]
  · intro c hk hlen hc hcp hct hci hcu
    have hfind := comment_query_found st uid pid iid c hk hlen hc hcp hct hci
    have hbne : (c.user_id != uid) = true := by
      rw [bne_iff_ne]; exact hcu
    simp [delete_comment, hfind, hbne]

/-- C3 witness: a missing comment id raises `NotFound`; a non-author caller on
a reachable comment raises `Validation`, both leaving the store unchanged. -/
theorem C3_witness :
    delete_comment w1St ['u'] ['P'] ['x'] =
      (.error (.notFound "コメントが見つかりません"), w1St)
    ∧ delete_comment c6St ['v'] ['P'] (mkInteractionId commentT ['u'] 5) =
      (.error (.validation "自分のコメントのみ削除できます"), c6St) := by
  refine ⟨(C3_delete_comment_failures w1St ['u'] ['P'] ['x']).1 (by decide), ?_⟩
  exact (C3_delete_comment_failures c6St ['v'] ['P'] (mkInteractionId commentT ['u'] 5)).2
    { post_id := ['P'], user_id := ['u'], interaction_type := commentT,
      content := some ['y'], created_at := 5,
      interaction_id := mkInteractionId commentT ['u'] 5 }
    (by decide) (by decide) (by decide) (by decide) (by decide) (by decide) (by decide)

/-- C8, counterexample to the claim as stated: the author of the 51st comment
of `bigSt` cannot delete it — the `Limit = 50` comment query does not reach
it, so `delete_comment` raises `NotFound`, deletes nothing and changes no
counter, while the claim requires a successful delete and decrement. -/
theorem C8_counterexample :
    bigComment 50 ∈ bigSt.interactions
    ∧ (bigComment 50).post_id = ['P']
    ∧ (bigComment 50).interaction_type = commentT
    ∧ (bigComment 50).interaction_id = bigTarget
    ∧ (bigComment 50).user_id = ['b']
    ∧ Post.get_by_id bigSt ['P'] =
        some { post_id := ['P'], likes_count := 0, comments_count := 51 }
    ∧ delete_comment bigSt ['b'] ['P'] bigTarget =
        (.error (.notFound "コメントが見つかりません"), bigSt) := by
  decide

/-- C8 (amended): when the comment with the given id is reachable by the
`Limit = 50` query (in particular whenever the post has at most 50
interactions), the caller is its author, keys are unique and the post exists,
`delete_comment` removes exactly that Interaction (all other rows survive)
and then decrements the post's `comments_count` by exactly 1, returning the
resulting count. -/
theorem C8_delete_comment_success (st : Store) (uid pid iid : Str)
    (post : PostRec) (c : InteractionRec)
    (hk : KeysNodup st)
    (hlen : (st.interactions.filter (fun i => i.post_id == pid)).length ≤ 50)
    (hc : c ∈ st.interactions) (hcp : c.post_id = pid) (hct : c.interaction_type = commentT)
    (hci : c.interaction_id = iid) (hcu : c.user_id = uid)
    (hpost : Post.get_by_id st pid = some post) :
    delete_comment st uid pid iid =
      (.ok { message := "コメントを削除しました",
             comments_count := post.comments_count - 1 },
       Post.update_counts { st with interactions := deleteByKey st.interactions pid iid }
         pid 0 (-1))
    ∧ c ∉ (delete_comment st uid pid iid).2.interactions
    ∧ (∀ i ∈ st.interactions, i ≠ c → i ∈ (delete_comment st uid pid iid).2.interactions)
    ∧ (∀ i ∈ (delete_comment st uid pid iid).2.interactions, i ∈ st.interactions)
    ∧ Post.get_by_id (delete_comment st uid pid iid).2 pid =
        some { post with comments_count := post.comments_count - 1 } := by
  subst hci
  subst hcp
  subst hcu
  have hfind := comment_query_found st c.user_id c.post_id c.interaction_id c hk hlen hc
    rfl hct rfl
  have hbne : (c.user_id != c.user_id) = false := by simp
  have hget1 : Post.get_by_id
      { st with interactions := deleteByKey st.interactions c.post_id c.interaction_id }
      c.post_id = some post := hpost
  have hmain : delete_comment st c.user_id c.post_id c.interaction_id =
      (.ok { message := "コメントを削除しました",
             comments_count := post.comments_count - 1 },
       Post.update_counts
         { st with interactions := deleteByKey st.interactions c.post_id c.interaction_id }
         c.post_id 0 (-1)) := by
    simp [delete_comment, hfind, hbne, hget1]
  have hinter : (delete_comment st c.user_id c.post_id c.interaction_id).2.interactions
      = deleteByKey st.interactions c.post_id c.interaction_id := by
    rw [hmain]
    rfl
  refine ⟨hmain, ?_, ?_, ?_, ?_⟩
  · rw [hinter]
    unfold deleteByKey
    intro h
    have h2 := (List.mem_filter.mp h).2
    simp at h2
  · intro i hi hne
    rw [hinter]
    unfold deleteByKey
    rw [List.mem_filter]
    refine ⟨hi, ?_⟩
    by_cases hkey : (i.post_id == c.post_id && i.interaction_id == c.interaction_id) = true
    · rw [Bool.and_eq_true, beq_iff_eq, beq_iff_eq] at hkey
      exact absurd (keys_inj st hk i c hi hc hkey.1 hkey.2) hne
    · simp only [Bool.not_eq_true] at hkey
      simp [hkey]
  · intro i hi
    rw [hinter] at hi
    unfold deleteByKey at hi
    exact (List.mem_filter.mp hi).1
  · rw [hmain]
    show Post.get_by_id (Post.update_counts _ c.post_id 0 (-1)) c.post_id = _
    rw [get_by_id_update_self _ c.post_id 0 (-1) post hget1]
    have e1 : post.likes_count + 0 = post.likes_count := by omega
    have e2 : post.comments_count + (-1) = post.comments_count - 1 := by omega
    rw [e1, e2]

/-- C8 witness: the author deletes its only comment on a concrete store;
`comments_count` goes from 1 to 0 and the comment row is gone. -/
theorem C8_witness :
    (delete_comment w8St ['u'] ['P'] (mkInteractionId commentT ['u'] 0)).1 =
      .ok { message := "コメントを削除しました", comments_count := 0 }
    ∧ ({ post_id := ['P'], user_id := ['u'], interaction_type := commentT,
         content := some ['x'], created_at := 0,
         interaction_id := mkInteractionId commentT ['u'] 0 } : InteractionRec)
        ∉ (delete_comment w8St ['u'] ['P'] (mkInteractionId commentT ['u'] 0)).2.interactions := by
  have h := C8_delete_comment_success w8St ['u'] ['P'] (mkInteractionId commentT ['u'] 0)
    { post_id := ['P'], likes_count := 0, comments_count := 1 }
    { post_id := ['P'], user_id := ['u'], interaction_type := commentT,
      content := some ['x'], created_at := 0,
      interaction_id := mkInteractionId commentT ['u'] 0 }
    (by decide) (by decide) (by decide) (by decide) (by decide) (by decide) (by decide)
    (by decide)
  exact ⟨congrArg Prod.fst h.1, h.2.1⟩

/-! ### Claim C6 -/

/-- C6: whenever `get_post_comments` succeeds, the returned comment list is
sorted by `created_at` in non-decreasing (oldest-first) order. -/
theorem C6_comment_ordering (st : Store) (pid : Str) (limit : Nat) (r : CommentsResult)
    (h : get_post_comments st pid limit = .ok r) :
    List.Sorted (fun a b : CommentEntry => a.created_at ≤ b.created_at) r.comments := by
  unfold get_post_comments at h
  cases hp : Post.get_by_id st pid with
  | none =>
    rw [hp] at h
    simp at h
  | some post =>
    rw [hp] at h
    simp only [Except.ok.injEq] at h
    have hcom : r.comments =
        ((Interaction.get_post_interactions st pid (some commentT) limit).filterMap (fun c =>
          (User.get_by_id st c.user_id).map (fun u =>
            { interaction_id := c.interaction_id
              user_id := u.user_id
              username := u.username
              profile_image := u.profile_image
              content := c.content
              created_at := c.created_at : CommentEntry }))).mergeSort
          (fun a b => Nat.ble a.created_at b.created_at) := by
      rw [← h]
    rw [hcom]
    have htrans : ∀ (a b c : CommentEntry), Nat.ble a.created_at b.created_at = true →
        Nat.ble b.created_at c.created_at = true →
        Nat.ble a.created_at c.created_at = true := by
      intro a b c h1 h2
      simp only [Nat.ble_eq] at h1 h2 ⊢
      omega
    have htot : ∀ (a b : CommentEntry),
        (Nat.ble a.created_at b.created_at || Nat.ble b.created_at a.created_at) = true := by
      intro a b
      simp only [Bool.or_eq_true, Nat.ble_eq]
      omega
    have hs := List.sorted_mergeSort htrans htot
      ((Interaction.get_post_interactions st pid (some commentT) limit).filterMap (fun c =>
        (User.get_by_id st c.user_id).map (fun u =>
          { interaction_id := c.interaction_id
            user_id := u.user_id
            username := u.username
            profile_image := u.profile_image
            content := c.content
            created_at := c.created_at : CommentEntry })))
    exact List.Pairwise.imp (fun hab => by simpa only [Nat.ble_eq] using hab) hs

/-- C6 witness: a concrete store whose two comments are stored newest-first is
returned sorted oldest-first. -/
theorem C6_witness :
    ∃ r, get_post_comments c6St ['P'] 50 = .ok r
      ∧ List.Sorted (fun a b : CommentEntry => a.created_at ≤ b.created_at) r.comments := by
  refine ⟨_, rfl, ?_⟩
  exact C6_comment_ordering c6St ['P'] 50 _ rfl

/-! ### Claim C9 -/

/-- C9: for every existing post, `get_post_likes` returns the list of live
like rows joined with each liker's User record (likes whose user no longer
exists are skipped), the length of that joined list as `likes_count`, and —
as an independently derived number — the Post row's authoritative
`likes_count` as `total_likes`; the two numbers can diverge, as a concrete
drifted store shows. -/
theorem C9_get_post_likes :
    (∀ (st : Store) (pid : Str) (limit : Nat) (post : PostRec),
      Post.get_by_id st pid = some post →
      get_post_likes st pid limit = .ok
        { likes := (Interaction.get_post_interactions st pid (some likeT) limit).filterMap
            (fun like => (User.get_by_id st like.user_id).map (fun u =>
              { user_id := u.user_id, username := u.username,
                profile_image := u.profile_image, created_at := like.created_at : LikeEntry })),
          likes_count := ((Interaction.get_post_interactions st pid (some likeT) limit).filterMap
            (fun like => (User.get_by_id st like.user_id).map (fun u =>
              { user_id := u.user_id, username := u.username,
                profile_image := u.profile_image,
                created_at := like.created_at : LikeEntry }))).length,
          total_likes := post.likes_count })
    ∧ (∃ (st : Store) (pid : Str) (r : LikesResult),
        get_post_likes st pid 50 = .ok r ∧ (r.likes_count : Int) ≠ r.total_likes) := by
  constructor
  · intro st pid limit post hpost
    simp [get_post_likes, hpost]
  · exact ⟨c9St, ['P'], { likes := [], likes_count := 0, total_likes := 5 },
      by decide, by decide⟩

/-- C9 witness: the descriptive half applied to the drifted store — the query
yields no likes while `total_likes` reports the Post row's counter 5. -/
theorem C9_witness :
    get_post_likes c9St ['P'] 50 = .ok { likes := [], likes_count := 0, total_likes := 5 } := by
  have h := C9_get_post_likes.1 c9St ['P'] 50
    { post_id := ['P'], likes_count := 5, comments_count := 0 } (by decide)
  exact h
